import Mathlib

/- Shallow embedding of the Vulkan H.264 video encoder from
   vulkan-video-encode-simple (src/h264parameterset.hpp, src/videoencoder.cpp).
   C++ uint32_t arithmetic is modelled on Nat with explicit reduction modulo
   2^32 wherever the source arithmetic can wrap. -/

/-- The modulus of uint32_t arithmetic, 2 to the power 32. -/
def U32 : Nat := 4294967296

/-- The uint32_t subtraction a - b, wrapping modulo 2^32. -/
def sub32 (a b : Nat) : Nat := (a + (U32 - b % U32)) % U32

/-- The C logical-not operator applied to an unsigned value: !x is 1 when x is 0
and 0 otherwise (used as !(gopFrameCount & 1) in the source). -/
def cppNot (x : Nat) : Nat := if x = 0 then 1 else 0

namespace h264

/-- Macroblock size alignment constant (h264parameterset.hpp line 11). -/
def H264MbSizeAlignment : Nat := 16

/-- Precondition asserted inside h264::AlignSize: the alignment is a power of
two (assert((alignment & (alignment - 1)) == 0), h264parameterset.hpp line 15). -/
def AlignSizeAssert (alignment : Nat) : Prop := alignment &&& (alignment - 1) = 0

/-- h264::AlignSize (h264parameterset.hpp lines 13-17):
returns (size + alignment - 1) & ~(alignment - 1) in uint32_t arithmetic.
The complement of (alignment - 1) within 32 bits is (U32 - 1) - (alignment - 1). -/
def AlignSize (size alignment : Nat) : Nat :=
  ((size + alignment - 1) % U32) &&& ((U32 - 1) - ((alignment - 1) % U32))

/-- StdVideoH264SequenceParameterSetVui, restricted to the fields the source
writes (h264parameterset.hpp lines 19-30). -/
structure H264Vui where
  timing_info_present_flag : Bool
  fixed_frame_rate_flag : Bool
  num_units_in_tick : Nat
  time_scale : Nat
  deriving DecidableEq

/-- h264::getStdVideoH264SequenceParameterSetVui (h264parameterset.hpp lines 19-30). -/
def getStdVideoH264SequenceParameterSetVui (fps : Nat) : H264Vui :=
  { timing_info_present_flag := true
    fixed_frame_rate_flag := true
    num_units_in_tick := 1
    time_scale := (fps * 2) % U32 }

inductive H264ProfileIdc
  | baseline
  | main
  | high
  deriving DecidableEq

inductive H264LevelIdc
  | level41
  deriving DecidableEq

inductive ChromaFormatIdc
  | monochrome
  | idc420
  | idc422
  | idc444
  deriving DecidableEq

/-- StdVideoH264SequenceParameterSet, restricted to the fields the source
writes (h264parameterset.hpp lines 42-69). -/
structure H264Sps where
  profile_idc : H264ProfileIdc
  level_idc : H264LevelIdc
  chroma_format_idc : ChromaFormatIdc
  bit_depth_luma_minus8 : Nat
  bit_depth_chroma_minus8 : Nat
  log2_max_frame_num_minus4 : Nat
  max_num_ref_frames : Nat
  pic_width_in_mbs_minus1 : Nat
  pic_height_in_map_units_minus1 : Nat
  frame_crop_right_offset : Nat
  frame_crop_bottom_offset : Nat
  log2_max_pic_order_cnt_lsb_minus4 : Nat
  frame_cropping_flag : Bool
  direct_8x8_inference_flag : Bool
  frame_mbs_only_flag : Bool
  vui_parameters_present_flag : Bool
  pSequenceParameterSetVui : Option H264Vui
  deriving DecidableEq

/-- h264::getStdVideoH264SequenceParameterSet (h264parameterset.hpp lines 32-72).
The crop offsets start as mbAligned - true size; when any of them is nonzero the
cropping flag is set and, the chroma format being 4:2:0, both offsets are
shifted right by one. -/
def getStdVideoH264SequenceParameterSet (width height : Nat) (pVui : Option H264Vui) :
    H264Sps :=
  let mbAlignedWidth := AlignSize width H264MbSizeAlignment
  let mbAlignedHeight := AlignSize height H264MbSizeAlignment
  let chroma := ChromaFormatIdc.idc420
  let cropRight0 := sub32 mbAlignedWidth width
  let cropBottom0 := sub32 mbAlignedHeight height
  let cropping := cropRight0 != 0 || cropBottom0 != 0
  { profile_idc := H264ProfileIdc.main
    level_idc := H264LevelIdc.level41
    chroma_format_idc := chroma
    bit_depth_luma_minus8 := 0
    bit_depth_chroma_minus8 := 0
    log2_max_frame_num_minus4 := 0
    max_num_ref_frames := 1
    pic_width_in_mbs_minus1 := sub32 (mbAlignedWidth / H264MbSizeAlignment) 1
    pic_height_in_map_units_minus1 := sub32 (mbAlignedHeight / H264MbSizeAlignment) 1
    frame_crop_right_offset :=
      if cropping then (if chroma = ChromaFormatIdc.idc420 then cropRight0 >>> 1 else cropRight0)
      else cropRight0
    frame_crop_bottom_offset :=
      if cropping then (if chroma = ChromaFormatIdc.idc420 then cropBottom0 >>> 1 else cropBottom0)
      else cropBottom0
    log2_max_pic_order_cnt_lsb_minus4 := 4
    frame_cropping_flag := cropping
    direct_8x8_inference_flag := true
    frame_mbs_only_flag := true
    vui_parameters_present_flag := pVui.isSome
    pSequenceParameterSetVui := pVui }

/-- StdVideoH264PictureParameterSet, restricted to the fields the source
writes (h264parameterset.hpp lines 74-89). -/
structure H264Pps where
  transform_8x8_mode_flag : Bool
  constrained_intra_pred_flag : Bool
  deblocking_filter_control_present_flag : Bool
  entropy_coding_mode_flag : Bool
  seq_parameter_set_id : Nat
  pic_parameter_set_id : Nat
  num_ref_idx_l0_default_active_minus1 : Nat
  pic_init_qp_minus26 : Int
  deriving DecidableEq

/-- h264::getStdVideoH264PictureParameterSet (h264parameterset.hpp lines 74-89). -/
def getStdVideoH264PictureParameterSet : H264Pps :=
  { transform_8x8_mode_flag := false
    constrained_intra_pred_flag := false
    deblocking_filter_control_present_flag := true
    entropy_coding_mode_flag := true
    seq_parameter_set_id := 0
    pic_parameter_set_id := 0
    num_ref_idx_l0_default_active_minus1 := 0
    pic_init_qp_minus26 := 0 }

/-- The three parameter-set values built by
VideoEncoder::createVideoSessionParameters (videoencoder.cpp lines 288-291). -/
structure SessionParams where
  vui : H264Vui
  sps : H264Sps
  pps : H264Pps
  deriving DecidableEq

/-- VideoEncoder::createVideoSessionParameters, value part
(videoencoder.cpp lines 288-291): derives the VUI, SPS and PPS from the stored
even width and height and the frame rate. -/
def createVideoSessionParameters (mWidth mHeight fps : Nat) : SessionParams :=
  let vui := getStdVideoH264SequenceParameterSetVui fps
  { vui := vui
    sps := getStdVideoH264SequenceParameterSet mWidth mHeight (some vui)
    pps := getStdVideoH264PictureParameterSet }

inductive H264SliceType
  | typeP
  | typeB
  | typeI
  deriving DecidableEq

inductive H264PictureType
  | typeP
  | typeB
  | typeI
  | typeIdr
  deriving DecidableEq

/-- The data assembled by the h264::FrameInfo constructor
(h264parameterset.hpp lines 91-150), restricted to the fields it writes.
refPicList0 models RefPicList0[0]; none stands for
STD_VIDEO_H264_NO_REFERENCE_PICTURE. -/
structure FrameInfo where
  slice_type : H264SliceType
  constantQp : Int
  IdrPicFlag : Bool
  is_reference : Bool
  no_output_of_prior_pics_flag : Bool
  primary_pic_type : H264PictureType
  frame_num : Nat
  PicOrderCnt : Nat
  refPicList0 : Option Nat
  naluSliceEntryCount : Nat
  deriving DecidableEq

/-- h264::FrameInfo::FrameInfo (h264parameterset.hpp lines 93-150). The first
argument is the frameCount parameter; at the single call site both frameCount
and gopFrameCount receive the GOP-relative index. The width and height
parameters are accepted and ignored, as in the source. -/
def mkFrameInfo (frameCount width height : Nat) (sps : H264Sps) (pps : H264Pps)
    (gopFrameCount : Nat) (useConstantQp : Bool) : FrameInfo :=
  let isI := gopFrameCount == 0
  let MaxPicOrderCntLsb := 2 ^ (sps.log2_max_pic_order_cnt_lsb_minus4 + 4)
  { slice_type := if isI then H264SliceType.typeI else H264SliceType.typeP
    constantQp := if useConstantQp then pps.pic_init_qp_minus26 + 26 else 0
    IdrPicFlag := isI
    is_reference := true
    no_output_of_prior_pics_flag := isI
    primary_pic_type := if isI then H264PictureType.typeIdr else H264PictureType.typeP
    frame_num := frameCount
    PicOrderCnt := ((frameCount * 2) % U32) % MaxPicOrderCntLsb
    refPicList0 := if isI then none else some (cppNot (gopFrameCount &&& 1))
    naluSliceEntryCount := 1 }

end h264

namespace VideoEncoder

/-- The three inter-queue semaphores created in VideoEncoder::init
(videoencoder.cpp lines 66-68). -/
inductive Sem
  | interQueue1
  | interQueue2
  | interQueue3
  deriving DecidableEq

/-- Wait and signal semaphore sets of one queue submission. -/
structure QueueSubmission where
  waits : List Sem
  signals : List Sem
  deriving DecidableEq

/-- Semaphore wiring of the conversion submission built at the end of
VideoEncoder::convertRGBtoYCbCr (videoencoder.cpp lines 748-762): it always
signals semaphores 1 and 3, and from the second frame on (m_frameCount != 0)
it waits on semaphores 2 and 3. -/
def convSubmission (mFrameCount : Nat) : QueueSubmission :=
  { waits := if mFrameCount != 0 then [Sem.interQueue2, Sem.interQueue3] else []
    signals := [Sem.interQueue1, Sem.interQueue3] }

/-- Semaphore wiring of the encode submission built at the end of
VideoEncoder::encodeVideoFrame (videoencoder.cpp lines 893-905): it waits on
semaphore 1 and signals semaphore 2. -/
def encodeSubmission : QueueSubmission :=
  { waits := [Sem.interQueue1], signals := [Sem.interQueue2] }

/-- GOP length constant from VideoEncoder::encodeVideoFrame
(videoencoder.cpp line 766). -/
def GOP_LENGTH : Nat := 16

/-- The encode command assembled by VideoEncoder::encodeVideoFrame
(videoencoder.cpp lines 765-905), restricted to the pure data it computes.
dpbImageViewIx and refImageViewIx are the indices into m_dpbImageViews bound as
setup picture and reference picture (lines 785 and 791). beginSlotIndex0 is
referenceSlots[0].slotIndex at vkCmdBeginVideoCodingKHR time (line 818);
setupSlotIndex is its value when used as pSetupReferenceSlot (line 874).
encodeRefSlots lists the (slotIndex, FrameNum) pairs bound through
videoEncodeInfo.pReferenceSlots (lines 877-880). -/
structure EncodeFrameCmd where
  gopFrameCount : Nat
  dpbImageViewIx : Nat
  refImageViewIx : Nat
  beginSlotIndex0 : Int
  refSlotIndex : Int
  beginRefSlotCount : Nat
  setupSlotIndex : Int
  dpbRefInfoFrameNum : Nat
  refRefInfoFrameNum : Nat
  encodeRefSlotCount : Nat
  encodeRefSlots : List (Int × Nat)
  frameInfo : h264.FrameInfo
  deriving DecidableEq

/-- VideoEncoder::encodeVideoFrame (videoencoder.cpp lines 765-905), pure part.
mFrameCount is m_frameCount; the GOP-relative index is m_frameCount modulo 16.
refRefInfoFrameNum is gopFrameCount - 1 computed in uint32_t (line 807). -/
def encodeVideoFrame (mFrameCount mWidth mHeight : Nat) (sps : h264.H264Sps)
    (pps : h264.H264Pps) (useConstantQp : Bool) : EncodeFrameCmd :=
  let gopFrameCount := mFrameCount % GOP_LENGTH
  let refFrameNum := sub32 gopFrameCount 1
  { gopFrameCount := gopFrameCount
    dpbImageViewIx := gopFrameCount &&& 1
    refImageViewIx := cppNot (gopFrameCount &&& 1)
    beginSlotIndex0 := -1
    refSlotIndex := Int.ofNat (cppNot (gopFrameCount &&& 1))
    beginRefSlotCount := if gopFrameCount == 0 then 1 else 2
    setupSlotIndex := Int.ofNat (gopFrameCount &&& 1)
    dpbRefInfoFrameNum := gopFrameCount
    refRefInfoFrameNum := refFrameNum
    encodeRefSlotCount := if gopFrameCount > 0 then 1 else 0
    encodeRefSlots :=
      if gopFrameCount > 0 then [(Int.ofNat (cppNot (gopFrameCount &&& 1)), refFrameNum)]
      else []
    frameInfo := h264.mkFrameInfo gopFrameCount mWidth mHeight sps pps gopFrameCount useConstantQp }

/-- Coordinator state of one VideoEncoder instance: the member variables of the
class that drive the queueEncode/finishEncode/init/deinit protocol
(videoencoder.hpp). cmdBuffersAllocated tracks whether the per-frame compute
and encode command buffers are currently allocated; resourcesAllocated tracks
the session-lifetime Vulkan objects. -/
structure EncState where
  initialized : Bool
  running : Bool
  frameCount : Nat
  headerPending : Bool
  header : List Nat
  cmdBuffersAllocated : Bool
  resourcesAllocated : Bool
  width : Nat
  height : Nat
  deriving DecidableEq

/-- State of a default-constructed VideoEncoder. -/
def freshEncoder : EncState :=
  { initialized := false
    running := false
    frameCount := 0
    headerPending := false
    header := []
    cmdBuffersAllocated := false
    resourcesAllocated := false
    width := 0
    height := 0 }

/-- VideoEncoder::deinit (videoencoder.cpp lines 933-977): returns unchanged
when not initialized; otherwise, when a frame is running, drains it and frees
the per-frame command buffers, then releases all session resources, clears the
stored header bytes and clears the initialized flag. Note that m_running and
m_bitStreamHeaderPending are left as they are. -/
def deinit (s : EncState) : EncState :=
  if !s.initialized then s
  else
    { s with
      cmdBuffersAllocated := if s.running then false else s.cmdBuffersAllocated
      resourcesAllocated := false
      header := []
      initialized := false }

/-- Whether VideoEncoder::deinit performs the blocking getOutputVideoPacket
drain (videoencoder.cpp lines 938-944): exactly when it is initialized and a
frame is in flight. -/
def deinitDrains (s : EncState) : Bool := s.initialized && s.running

/-- VideoEncoder::init (videoencoder.cpp lines 24-100): asserts !m_running
(modelled as none), is a no-op when already initialized at the same even
resolution, otherwise deinitializes first if needed and then creates all
resources, reads the bitstream header (hdr stands for the serialized
parameter-set bytes produced by the driver, with m_bitStreamHeaderPending set)
and resets the frame counter. -/
def init (s : EncState) (width height fps : Nat) (hdr : List Nat) : Option EncState :=
  if s.running then none
  else
    let w := width &&& (U32 - 2)
    let h := height &&& (U32 - 2)
    if s.initialized && w == s.width && h == s.height then some s
    else
      let s1 := if s.initialized then deinit s else s
      some { s1 with
        initialized := true
        frameCount := 0
        headerPending := true
        header := hdr
        resourcesAllocated := true
        width := w
        height := h }

/-- VideoEncoder::queueEncode (videoencoder.cpp lines 102-107): none models a
failure of the assert(!m_running) precondition, in which case nothing is
queued; otherwise the conversion and encode work is submitted, which allocates
the two per-frame command buffers, and the running flag is set. -/
def queueEncode (s : EncState) (currentImageIx : Nat) : Option EncState :=
  if s.running then none
  else some { s with running := true, cmdBuffersAllocated := true }

/-- Result of one finishEncode call: a zero-length result, the stored header
bytes, or the packet of the frame with the given frame counter value. -/
inductive FEResult
  | empty
  | headerBytes (bytes : List Nat)
  | packet (frameIx : Nat)
  deriving DecidableEq

/-- Output of VideoEncoder::finishEncode: the returned data, whether the call
blocked on the encode fence and query read, and the successor state. -/
structure FEOut where
  result : FEResult
  blocked : Bool
  state : EncState
  deriving DecidableEq

/-- VideoEncoder::finishEncode (videoencoder.cpp lines 109-128): with no frame
running it returns a zero-length result at once; with the header still pending
it returns the header bytes and clears only the pending flag; otherwise it
blocks for the packet of the current frame, frees the per-frame command
buffers, increments the frame counter and clears the running flag. -/
def finishEncode (s : EncState) : FEOut :=
  if !s.running then ⟨FEResult.empty, false, s⟩
  else if s.headerPending then
    ⟨FEResult.headerBytes s.header, false, { s with headerPending := false }⟩
  else
    ⟨FEResult.packet s.frameCount, true,
      { s with cmdBuffersAllocated := false, frameCount := s.frameCount + 1, running := false }⟩

/-- One call made by a client of the coordinator. -/
inductive Op
  | queue (imageIx : Nat)
  | finish
  deriving DecidableEq

/-- Runs a sequence of queueEncode/finishEncode calls, collecting the
finishEncode results; none when some queueEncode violates its precondition. -/
def runOps : EncState → List Op → Option (List FEResult × EncState)
  | s, [] => some ([], s)
  | s, Op.queue ix :: rest =>
    match queueEncode s ix with
    | none => none
    | some s1 => runOps s1 rest
  | s, Op.finish :: rest =>
    match runOps (finishEncode s).state rest with
    | none => none
    | some (outs, sEnd) => some ((finishEncode s).result :: outs, sEnd)

/-- Whether a finishEncode result is the header. -/
def isHeaderResult : FEResult → Bool
  | FEResult.headerBytes _ => true
  | _ => false

/-- Whether a finishEncode result is the zero-length sentinel. -/
def isEmptyResult : FEResult → Bool
  | FEResult.empty => true
  | _ => false

/-- Number of header results in a list of finishEncode results. -/
def headerCount (outs : List FEResult) : Nat := (outs.filter isHeaderResult).length

/-- The non-empty (actually retrieved) results in a list of finishEncode
results. -/
def realResults (outs : List FEResult) : List FEResult :=
  outs.filter (fun r => !isEmptyResult r)

/-- The coordinator state right after a first init at 800x600: initialized,
header pending, nothing running (used as concrete test state). -/
def postInitState : EncState :=
  { initialized := true
    running := false
    frameCount := 0
    headerPending := true
    header := [9, 8]
    cmdBuffersAllocated := false
    resourcesAllocated := true
    width := 800
    height := 600 }

/-- The state after the first queueEncode from postInitState. -/
def postQueueState : EncState :=
  { postInitState with running := true, cmdBuffersAllocated := true }

/-- A state with a frame in flight and the header already emitted. -/
def runningState : EncState :=
  { postInitState with running := true, cmdBuffersAllocated := true, headerPending := false }

/-- A demonstration call sequence: queue a frame, drain twice (header then
packet), queue another, drain again. -/
def demoOps : List Op := [Op.queue 0, Op.finish, Op.finish, Op.queue 1, Op.finish]

/-- The finishEncode results of demoOps from postInitState. -/
def demoOuts : List FEResult :=
  [FEResult.headerBytes [9, 8], FEResult.packet 0, FEResult.packet 1]

/-- The final state of demoOps from postInitState. -/
def demoEndState : EncState :=
  { postInitState with headerPending := false, frameCount := 2 }

end VideoEncoder

/- Helper lemmas. -/

/-- The uint32 subtraction agrees with Nat subtraction when it does not wrap. -/
theorem sub32_eq (a b : Nat) (hb : b ≤ a) (ha : a < U32) : sub32 a b = a - b := by
  unfold sub32
  have hbU : b % U32 = b := Nat.mod_eq_of_lt (lt_of_le_of_lt hb ha)
  have hU : U32 = 4294967296 := rfl
  rw [hbU]
  have h1 : a + (U32 - b) = (a - b) + U32 := by omega
  rw [h1, Nat.add_mod_right]
  exact Nat.mod_eq_of_lt (by omega)

/-- Masking a 32-bit value with the complement of 15 floors it to a multiple
of 16. -/
theorem mask16_eq (x : Nat) (hx : x < U32) :
    x &&& (U32 - 16) = 16 * (x / 16) := by
  have hm : U32 - 16 = (2 ^ 28 - 1) <<< 4 := by
    simp [Nat.shiftLeft_eq, U32]
  have hr : 16 * (x / 16) = (x >>> 4) <<< 4 := by
    simp [Nat.shiftLeft_eq, Nat.shiftRight_eq_div_pow]
    omega
  have hx2 : x < 2 ^ 32 := by
    have : U32 = 2 ^ 32 := by norm_num [U32]
    omega
  rw [hm, hr]
  apply Nat.eq_of_testBit_eq
  intro i
  rw [Nat.testBit_and, Nat.testBit_shiftLeft, Nat.testBit_shiftLeft, Nat.testBit_shiftRight,
    Nat.testBit_two_pow_sub_one]
  simp only [ge_iff_le]
  by_cases h4 : 4 ≤ i
  · have hi : 4 + (i - 4) = i := by omega
    by_cases h32 : i < 32
    · simp [h4, hi, show i - 4 < 28 by omega]
    · have h2 : (2 : Nat) ^ 32 ≤ 2 ^ i := Nat.pow_le_pow_right (by norm_num) (by omega)
      have hxb : x.testBit i = false := Nat.testBit_lt_two_pow (lt_of_lt_of_le hx2 h2)
      simp [h4, hi, hxb, show ¬(i - 4 < 28) by omega]
  · simp [h4]

/-- Closed form of h264::AlignSize at the macroblock alignment 16: it rounds
its argument up to the next multiple of 16 (when no uint32 wrap occurs). -/
theorem alignSize16 (x : Nat) (hx : x + 16 ≤ U32) :
    h264.AlignSize x h264.H264MbSizeAlignment = 16 * ((x + 15) / 16) := by
  unfold h264.AlignSize h264.H264MbSizeAlignment
  have hU : U32 = 4294967296 := rfl
  have e1 : x + 16 - 1 = x + 15 := by omega
  have e2 : (U32 - 1) - ((16 - 1) % U32) = U32 - 16 := by rw [hU]
  have hlt : x + 15 < U32 := by omega
  rw [e1, e2, Nat.mod_eq_of_lt hlt, mask16_eq _ hlt]

/-- Shifting a Nat right by one bit halves it. -/
theorem shiftRight_one_eq_half (n : Nat) : n >>> 1 = n / 2 := by
  rw [Nat.shiftRight_eq_div_pow]

/-- Picture order count produced by encodeVideoFrame when the sequence
parameter set carries the log2 field value 4 used by the builder. -/
theorem pocFormula (fc mW mH : Nat) (sps : h264.H264Sps) (pps : h264.H264Pps) (qp : Bool)
    (h4 : sps.log2_max_pic_order_cnt_lsb_minus4 = 4) :
    (VideoEncoder.encodeVideoFrame fc mW mH sps pps qp).frameInfo.PicOrderCnt
      = (2 * (fc % VideoEncoder.GOP_LENGTH)) % 256 := by
  have hg : fc % VideoEncoder.GOP_LENGTH < 16 := Nat.mod_lt _ (by decide)
  simp only [VideoEncoder.encodeVideoFrame, h264.mkFrameInfo, h4]
  have hU : U32 = 4294967296 := rfl
  have h1 : (fc % VideoEncoder.GOP_LENGTH) * 2 < U32 := by omega
  rw [Nat.mod_eq_of_lt h1]
  norm_num [Nat.mul_comm]

/-- C1: for every frame counter value, with g the GOP-relative index, the
encode command writes reference slot (g & 1) as setup slot (and binds the
matching DPB image view) and reads slot !(g & 1) as reference, and the two
slot indices are never equal. -/
theorem slot_parity_assignment (mFrameCount mWidth mHeight : Nat)
    (sps : h264.H264Sps) (pps : h264.H264Pps) (qp : Bool) :
    (VideoEncoder.encodeVideoFrame mFrameCount mWidth mHeight sps pps qp).setupSlotIndex
        = Int.ofNat ((mFrameCount % VideoEncoder.GOP_LENGTH) &&& 1) ∧
    (VideoEncoder.encodeVideoFrame mFrameCount mWidth mHeight sps pps qp).refSlotIndex
        = Int.ofNat (cppNot ((mFrameCount % VideoEncoder.GOP_LENGTH) &&& 1)) ∧
    (VideoEncoder.encodeVideoFrame mFrameCount mWidth mHeight sps pps qp).dpbImageViewIx
        = (mFrameCount % VideoEncoder.GOP_LENGTH) &&& 1 ∧
    (VideoEncoder.encodeVideoFrame mFrameCount mWidth mHeight sps pps qp).refImageViewIx
        = cppNot ((mFrameCount % VideoEncoder.GOP_LENGTH) &&& 1) ∧
    (VideoEncoder.encodeVideoFrame mFrameCount mWidth mHeight sps pps qp).setupSlotIndex
        ≠ (VideoEncoder.encodeVideoFrame mFrameCount mWidth mHeight sps pps qp).refSlotIndex := by
  refine ⟨rfl, rfl, rfl, rfl, ?_⟩
  show Int.ofNat ((mFrameCount % VideoEncoder.GOP_LENGTH) &&& 1)
      ≠ Int.ofNat (cppNot ((mFrameCount % VideoEncoder.GOP_LENGTH) &&& 1))
  rw [Nat.and_one_is_mod]
  rcases Nat.mod_two_eq_zero_or_one (mFrameCount % VideoEncoder.GOP_LENGTH) with h | h <;>
    simp [h, cppNot]

/-- C2: with g the GOP-relative index, the picture is an IDR intra picture
with empty reference list and zero bound reference slots exactly when g is 0;
otherwise it is predicted, exactly one reference slot is bound, and the bound
reference-info record carries frame_num g - 1. -/
theorem gop_picture_reference_structure (mFrameCount mWidth mHeight : Nat)
    (sps : h264.H264Sps) (pps : h264.H264Pps) (qp : Bool) :
    let g := mFrameCount % VideoEncoder.GOP_LENGTH
    let c := VideoEncoder.encodeVideoFrame mFrameCount mWidth mHeight sps pps qp
    c.frameInfo.slice_type
        = (if g = 0 then h264.H264SliceType.typeI else h264.H264SliceType.typeP) ∧
    c.frameInfo.IdrPicFlag = (if g = 0 then true else false) ∧
    c.frameInfo.primary_pic_type
        = (if g = 0 then h264.H264PictureType.typeIdr else h264.H264PictureType.typeP) ∧
    c.frameInfo.refPicList0 = (if g = 0 then none else some (cppNot (g &&& 1))) ∧
    c.encodeRefSlotCount = (if g = 0 then 0 else 1) ∧
    c.encodeRefSlots = (if g = 0 then [] else [(Int.ofNat (cppNot (g &&& 1)), g - 1)]) ∧
    c.encodeRefSlots.length = (if g = 0 then 0 else 1) ∧
    c.refRefInfoFrameNum = (if g = 0 then sub32 0 1 else g - 1) := by
  have hg : mFrameCount % VideoEncoder.GOP_LENGTH < 16 := Nat.mod_lt _ (by decide)
  have hU : U32 = 4294967296 := rfl
  by_cases h0 : mFrameCount % VideoEncoder.GOP_LENGTH = 0
  · simp [VideoEncoder.encodeVideoFrame, h264.mkFrameInfo, h0]
  · have hsub : sub32 (mFrameCount % VideoEncoder.GOP_LENGTH) 1
        = mFrameCount % VideoEncoder.GOP_LENGTH - 1 :=
      sub32_eq _ _ (by omega) (by omega)
    simp [VideoEncoder.encodeVideoFrame, h264.mkFrameInfo, h0, hsub, Nat.pos_of_ne_zero h0]

/-- C3: the sequence parameter set built from any geometry sets
log2_max_pic_order_cnt_lsb_minus4 to 4 (a picture-order-count range of 256),
the picture order count submitted with a frame of GOP-relative index g is
(2 * g) mod 256, and over one GOP of length 16 the values for g = 0..15 are
exactly 0, 2, 4, ..., 30, strictly increasing by 2. -/
theorem poc_progression (w h fps mFrameCount mWidth mHeight : Nat) (qp : Bool) :
    (h264.createVideoSessionParameters w h fps).sps.log2_max_pic_order_cnt_lsb_minus4 = 4 ∧
    (VideoEncoder.encodeVideoFrame mFrameCount mWidth mHeight
        (h264.createVideoSessionParameters w h fps).sps
        (h264.createVideoSessionParameters w h fps).pps qp).frameInfo.PicOrderCnt
      = (2 * (mFrameCount % VideoEncoder.GOP_LENGTH)) % 256 ∧
    (List.range VideoEncoder.GOP_LENGTH).map (fun g =>
        (VideoEncoder.encodeVideoFrame g mWidth mHeight
          (h264.createVideoSessionParameters w h fps).sps
          (h264.createVideoSessionParameters w h fps).pps qp).frameInfo.PicOrderCnt)
      = [0, 2, 4, 6, 8, 10, 12, 14, 16, 18, 20, 22, 24, 26, 28, 30] := by
  refine ⟨rfl, pocFormula _ _ _ _ _ _ rfl, ?_⟩
  rw [show (fun g => (VideoEncoder.encodeVideoFrame g mWidth mHeight
        (h264.createVideoSessionParameters w h fps).sps
        (h264.createVideoSessionParameters w h fps).pps qp).frameInfo.PicOrderCnt)
      = (fun g => (2 * (g % VideoEncoder.GOP_LENGTH)) % 256) from
    funext (fun g => pocFormula _ _ _ _ _ _ rfl)]
  decide

/-- C7: for every geometry with positive dimensions fitting uint32 arithmetic,
the parameter-set builder rounds both picture dimensions up to the nearest
multiple of 16, stores crop offsets equal to the aligned size minus the true
size halved under 4:2:0 chroma subsampling, sets a picture-order-count range of
256 (log2 field 4), allows one reference frame, emits exactly one slice per
picture, and the power-of-two assertion inside AlignSize holds. -/
theorem paramset_builder_geometry (width height fps : Nat)
    (hw1 : 0 < width) (hw2 : width + 16 ≤ U32)
    (hh1 : 0 < height) (hh2 : height + 16 ≤ U32) :
    let sps := (h264.createVideoSessionParameters width height fps).sps
    let alignedW := h264.AlignSize width h264.H264MbSizeAlignment
    let alignedH := h264.AlignSize height h264.H264MbSizeAlignment
    alignedW = 16 * ((width + 15) / 16) ∧
    (16 ∣ alignedW ∧ width ≤ alignedW ∧ alignedW < width + 16) ∧
    alignedH = 16 * ((height + 15) / 16) ∧
    (16 ∣ alignedH ∧ height ≤ alignedH ∧ alignedH < height + 16) ∧
    sps.pic_width_in_mbs_minus1 = alignedW / 16 - 1 ∧
    sps.pic_height_in_map_units_minus1 = alignedH / 16 - 1 ∧
    sps.frame_crop_right_offset = (alignedW - width) / 2 ∧
    sps.frame_crop_bottom_offset = (alignedH - height) / 2 ∧
    sps.log2_max_pic_order_cnt_lsb_minus4 = 4 ∧
    sps.max_num_ref_frames = 1 ∧
    (∀ fc qp, (VideoEncoder.encodeVideoFrame fc width height sps
        (h264.createVideoSessionParameters width height fps).pps qp).frameInfo.naluSliceEntryCount
      = 1) ∧
    h264.AlignSizeAssert h264.H264MbSizeAlignment := by
  intro sps alignedW alignedH
  have hU : U32 = 4294967296 := rfl
  have hA : alignedW = 16 * ((width + 15) / 16) := alignSize16 width hw2
  have hB : alignedH = 16 * ((height + 15) / 16) := alignSize16 height hh2
  have hwA : width ≤ alignedW := by omega
  have hwA2 : alignedW < width + 16 := by omega
  have hhB : height ≤ alignedH := by omega
  have hhB2 : alignedH < height + 16 := by omega
  have hAU : alignedW < U32 := by omega
  have hBU : alignedH < U32 := by omega
  have hsubA : sub32 alignedW width = alignedW - width := sub32_eq _ _ hwA hAU
  have hsubB : sub32 alignedH height = alignedH - height := sub32_eq _ _ hhB hBU
  have hA16 : 16 ≤ alignedW := by omega
  have hB16 : 16 ≤ alignedH := by omega
  have hdivA : sub32 (alignedW / 16) 1 = alignedW / 16 - 1 :=
    sub32_eq _ _ (by omega) (by omega)
  have hdivB : sub32 (alignedH / 16) 1 = alignedH / 16 - 1 :=
    sub32_eq _ _ (by omega) (by omega)
  refine ⟨hA, ⟨⟨(width + 15) / 16, hA⟩, hwA, hwA2⟩, hB, ⟨⟨(height + 15) / 16, hB⟩, hhB, hhB2⟩,
    ?_, ?_, ?_, ?_, rfl, rfl, fun fc qp => rfl, by unfold h264.AlignSizeAssert; decide⟩
  · show sub32 (alignedW / h264.H264MbSizeAlignment) 1 = alignedW / 16 - 1
    exact hdivA
  · show sub32 (alignedH / h264.H264MbSizeAlignment) 1 = alignedH / 16 - 1
    exact hdivB
  · show (if (sub32 alignedW width != 0 || sub32 alignedH height != 0) then
        (if h264.ChromaFormatIdc.idc420 = h264.ChromaFormatIdc.idc420 then
          sub32 alignedW width >>> 1 else sub32 alignedW width)
      else sub32 alignedW width) = (alignedW - width) / 2
    rw [hsubA, hsubB, if_pos rfl]
    by_cases h1 : alignedW - width = 0 <;> by_cases h2 : alignedH - height = 0 <;>
      simp [h1, h2, shiftRight_one_eq_half]
  · show (if (sub32 alignedW width != 0 || sub32 alignedH height != 0) then
        (if h264.ChromaFormatIdc.idc420 = h264.ChromaFormatIdc.idc420 then
          sub32 alignedH height >>> 1 else sub32 alignedH height)
      else sub32 alignedH height) = (alignedH - height) / 2
    rw [hsubA, hsubB, if_pos rfl]
    by_cases h1 : alignedW - width = 0 <;> by_cases h2 : alignedH - height = 0 <;>
      simp [h1, h2, shiftRight_one_eq_half]

/-- Witness for C7 at width 801, height 600, fps 30. -/
theorem paramset_builder_geometry_witness :
    (0 < 801 ∧ 801 + 16 ≤ U32 ∧ 0 < 600 ∧ 600 + 16 ≤ U32) ∧
    h264.AlignSize 801 h264.H264MbSizeAlignment = 16 * ((801 + 15) / 16) ∧
    (h264.createVideoSessionParameters 801 600 30).sps.frame_crop_right_offset
      = (h264.AlignSize 801 h264.H264MbSizeAlignment - 801) / 2 ∧
    (h264.createVideoSessionParameters 801 600 30).sps.max_num_ref_frames = 1 := by
  have h := paramset_builder_geometry 801 600 30 (by decide) (by decide) (by decide) (by decide)
  obtain ⟨a1, a2, a3, a4, b1, b2, c1, c2, c3, c4, d1, d2⟩ := h
  exact ⟨⟨by decide, by decide, by decide, by decide⟩, a1, c1, c4⟩


/-- Branch equation for finishEncode with no frame running. -/
theorem finishEncode_idle (s : VideoEncoder.EncState) (hr : s.running = false) :
    VideoEncoder.finishEncode s = ⟨VideoEncoder.FEResult.empty, false, s⟩ := by
  simp [VideoEncoder.finishEncode, hr]

/-- Branch equation for finishEncode with a frame running and the header still
pending. -/
theorem finishEncode_header (s : VideoEncoder.EncState) (hr : s.running = true)
    (hp : s.headerPending = true) :
    VideoEncoder.finishEncode s
      = ⟨VideoEncoder.FEResult.headerBytes s.header, false,
          { s with headerPending := false }⟩ := by
  simp [VideoEncoder.finishEncode, hr, hp]

/-- Branch equation for finishEncode with a frame running and the header
already emitted. -/
theorem finishEncode_packet (s : VideoEncoder.EncState) (hr : s.running = true)
    (hp : s.headerPending = false) :
    VideoEncoder.finishEncode s
      = ⟨VideoEncoder.FEResult.packet s.frameCount, true,
          { s with
            cmdBuffersAllocated := false
            frameCount := s.frameCount + 1
            running := false }⟩ := by
  simp [VideoEncoder.finishEncode, hr, hp]

/-- Branch equation for queueEncode from a non-running state. -/
theorem queueEncode_ready (s : VideoEncoder.EncState) (ix : Nat) (hr : s.running = false) :
    VideoEncoder.queueEncode s ix
      = some { s with running := true, cmdBuffersAllocated := true } := by
  simp [VideoEncoder.queueEncode, hr]

/-- In any run of queueEncode/finishEncode calls, the number of header results
plus the final header-pending bit equals the initial header-pending bit: the
header can be handed out at most once and exactly while it is pending. -/
theorem runOps_header_budget (ops : List VideoEncoder.Op) :
    ∀ (s : VideoEncoder.EncState) (outs : List VideoEncoder.FEResult)
      (sEnd : VideoEncoder.EncState),
      VideoEncoder.runOps s ops = some (outs, sEnd) →
      VideoEncoder.headerCount outs + (if sEnd.headerPending then 1 else 0)
        = (if s.headerPending then 1 else 0) := by
  induction ops with
  | nil =>
    intro s outs sEnd hrun
    simp only [VideoEncoder.runOps, Option.some.injEq, Prod.mk.injEq] at hrun
    obtain ⟨h1, h2⟩ := hrun
    subst h1
    subst h2
    simp [VideoEncoder.headerCount]
  | cons op rest ih =>
    intro s outs sEnd hrun
    cases op with
    | queue ix =>
      by_cases hr : s.running
      · simp [VideoEncoder.runOps, VideoEncoder.queueEncode, hr] at hrun
      · rw [show VideoEncoder.runOps s (VideoEncoder.Op.queue ix :: rest)
            = VideoEncoder.runOps { s with running := true, cmdBuffersAllocated := true } rest by
          simp [VideoEncoder.runOps, queueEncode_ready s ix (by simpa using hr)]] at hrun
        have := ih _ _ _ hrun
        simpa using this
    | finish =>
      simp only [VideoEncoder.runOps] at hrun
      cases hrec : VideoEncoder.runOps (VideoEncoder.finishEncode s).state rest with
      | none => rw [hrec] at hrun; simp at hrun
      | some p =>
        obtain ⟨outs2, sEnd2⟩ := p
        rw [hrec] at hrun
        simp only [Option.some.injEq, Prod.mk.injEq] at hrun
        obtain ⟨ho, hs⟩ := hrun
        subst ho
        subst hs
        have hbud := ih _ _ _ hrec
        by_cases hr : s.running
        · by_cases hp : s.headerPending
          · have hp2 : s.headerPending = true := by simpa using hp
            rw [finishEncode_header s (by simpa using hr) hp2] at hbud ⊢
            have hbud2 : VideoEncoder.headerCount outs2
                + (if sEnd2.headerPending then 1 else 0) = 0 := hbud
            show VideoEncoder.headerCount
                (VideoEncoder.FEResult.headerBytes s.header :: outs2)
                + (if sEnd2.headerPending then 1 else 0)
              = (if s.headerPending then 1 else 0)
            have hcons : VideoEncoder.headerCount
                (VideoEncoder.FEResult.headerBytes s.header :: outs2)
                = VideoEncoder.headerCount outs2 + 1 := by
              simp [VideoEncoder.headerCount, VideoEncoder.isHeaderResult]
            rw [hcons, hp2]
            have h1 : (if true = true then 1 else 0) = 1 := rfl
            rw [h1]
            omega
          · have hp2 : s.headerPending = false := by simpa using hp
            rw [finishEncode_packet s (by simpa using hr) hp2] at hbud ⊢
            have hbud2 : VideoEncoder.headerCount outs2
                + (if sEnd2.headerPending then 1 else 0)
              = (if s.headerPending then 1 else 0) := hbud
            show VideoEncoder.headerCount
                (VideoEncoder.FEResult.packet s.frameCount :: outs2)
                + (if sEnd2.headerPending then 1 else 0)
              = (if s.headerPending then 1 else 0)
            have hcons : VideoEncoder.headerCount
                (VideoEncoder.FEResult.packet s.frameCount :: outs2)
                = VideoEncoder.headerCount outs2 := by
              simp [VideoEncoder.headerCount, VideoEncoder.isHeaderResult]
            rw [hcons]
            exact hbud2
        · rw [finishEncode_idle s (by simpa using hr)] at hbud ⊢
          simp only at hbud
          simp only [VideoEncoder.headerCount, List.filter_cons] at hbud ⊢
          simp [VideoEncoder.isHeaderResult] at hbud ⊢
          omega

/-- In any run of queueEncode/finishEncode calls starting with the header
pending, the first non-empty finishEncode result, if any, is exactly the
stored header bytes. -/
theorem runOps_first_real (ops : List VideoEncoder.Op) :
    ∀ (s : VideoEncoder.EncState) (outs : List VideoEncoder.FEResult)
      (sEnd : VideoEncoder.EncState),
      s.headerPending = true →
      VideoEncoder.runOps s ops = some (outs, sEnd) →
      VideoEncoder.realResults outs = [] ∨
        (VideoEncoder.realResults outs).head?
          = some (VideoEncoder.FEResult.headerBytes s.header) := by
  induction ops with
  | nil =>
    intro s outs sEnd hp hrun
    simp only [VideoEncoder.runOps, Option.some.injEq, Prod.mk.injEq] at hrun
    obtain ⟨h1, h2⟩ := hrun
    subst h1
    subst h2
    left
    simp [VideoEncoder.realResults]
  | cons op rest ih =>
    intro s outs sEnd hp hrun
    cases op with
    | queue ix =>
      by_cases hr : s.running
      · simp [VideoEncoder.runOps, VideoEncoder.queueEncode, hr] at hrun
      · rw [show VideoEncoder.runOps s (VideoEncoder.Op.queue ix :: rest)
            = VideoEncoder.runOps { s with running := true, cmdBuffersAllocated := true } rest by
          simp [VideoEncoder.runOps, queueEncode_ready s ix (by simpa using hr)]] at hrun
        exact ih { s with running := true, cmdBuffersAllocated := true } outs sEnd hp hrun
    | finish =>
      simp only [VideoEncoder.runOps] at hrun
      cases hrec : VideoEncoder.runOps (VideoEncoder.finishEncode s).state rest with
      | none => rw [hrec] at hrun; simp at hrun
      | some p =>
        obtain ⟨outs2, sEnd2⟩ := p
        rw [hrec] at hrun
        simp only [Option.some.injEq, Prod.mk.injEq] at hrun
        obtain ⟨ho, hs⟩ := hrun
        subst ho
        subst hs
        by_cases hr : s.running
        · right
          rw [finishEncode_header s (by simpa using hr) hp]
          simp [VideoEncoder.realResults, VideoEncoder.isEmptyResult]
        · rw [finishEncode_idle s (by simpa using hr)] at hrec ⊢
          have := ih _ _ _ hp hrec
          simpa [VideoEncoder.realResults, VideoEncoder.isEmptyResult] using this

/-- C5: queueEncode called while a frame is already submitted and not yet
retrieved fails the asserted precondition (modelled by none) and nothing is
queued; conversely, whenever a frame does get queued the encoder was not
running. -/
theorem queueEncode_inflight_precondition :
    (∀ (s : VideoEncoder.EncState) (ix : Nat), s.running = true →
        VideoEncoder.queueEncode s ix = none) ∧
    (∀ (s : VideoEncoder.EncState) (ix : Nat) (t : VideoEncoder.EncState),
        VideoEncoder.queueEncode s ix = some t → s.running = false) := by
  constructor
  · intro s ix hr
    simp [VideoEncoder.queueEncode, hr]
  · intro s ix t hq
    by_cases hr : s.running
    · simp [VideoEncoder.queueEncode, hr] at hq
    · simpa using hr

/-- Witness for C5: a running encoder rejects a second queueEncode, and the
demonstration first queueEncode goes through from a non-running state. -/
theorem queueEncode_inflight_precondition_witness :
    VideoEncoder.runningState.running = true ∧
    VideoEncoder.queueEncode VideoEncoder.runningState 0 = none ∧
    VideoEncoder.postInitState.running = false :=
  ⟨rfl, queueEncode_inflight_precondition.1 VideoEncoder.runningState 0 rfl,
    queueEncode_inflight_precondition.2 VideoEncoder.postInitState 0
      VideoEncoder.postQueueState (by decide)⟩

/-- C6: finishEncode called with no frame in flight returns the zero-length
sentinel immediately, does not block on any fence or query, and leaves the
state unchanged. -/
theorem finishEncode_idle_no_block (s : VideoEncoder.EncState)
    (h : s.running = false) :
    VideoEncoder.finishEncode s = ⟨VideoEncoder.FEResult.empty, false, s⟩ :=
  finishEncode_idle s h

/-- Witness for C6 at the freshly constructed encoder state. -/
theorem finishEncode_idle_no_block_witness :
    VideoEncoder.freshEncoder.running = false ∧
    VideoEncoder.finishEncode VideoEncoder.freshEncoder
      = ⟨VideoEncoder.FEResult.empty, false, VideoEncoder.freshEncoder⟩ :=
  ⟨rfl, finishEncode_idle_no_block VideoEncoder.freshEncoder rfl⟩

/-- C4 counterexample: the first finishEncode call after init, with nothing
queued yet, returns the zero-length result and not the serialized header
bytes, because the header branch of finishEncode is only reachable while a
frame is running. -/
theorem first_finish_after_init_cex :
    VideoEncoder.init VideoEncoder.freshEncoder 800 600 30 [9, 8]
      = some VideoEncoder.postInitState ∧
    VideoEncoder.postInitState.header = [9, 8] ∧
    (VideoEncoder.finishEncode VideoEncoder.postInitState).result
      = VideoEncoder.FEResult.empty ∧
    (VideoEncoder.finishEncode VideoEncoder.postInitState).result
      ≠ VideoEncoder.FEResult.headerBytes VideoEncoder.postInitState.header := by
  exact ⟨by decide, rfl, rfl, by decide⟩

/-- C4 amended: a finishEncode before any queueEncode returns the zero-length
result; once frames are queued, the header bytes are returned by the first
non-empty retrieval, exactly once and never again, and every retrieval with a
frame in flight and the header already emitted is that frame packet. -/
theorem header_emission_protocol :
    (∀ (w h fps : Nat) (hdr : List Nat) (s0 : VideoEncoder.EncState),
        VideoEncoder.init VideoEncoder.freshEncoder w h fps hdr = some s0 →
        VideoEncoder.finishEncode s0 = ⟨VideoEncoder.FEResult.empty, false, s0⟩) ∧
    (∀ (s : VideoEncoder.EncState) (ops : List VideoEncoder.Op)
        (outs : List VideoEncoder.FEResult) (sEnd : VideoEncoder.EncState),
        VideoEncoder.runOps s ops = some (outs, sEnd) →
        VideoEncoder.headerCount outs ≤ 1) ∧
    (∀ (s : VideoEncoder.EncState) (ops : List VideoEncoder.Op)
        (outs : List VideoEncoder.FEResult) (sEnd : VideoEncoder.EncState),
        s.headerPending = true →
        VideoEncoder.runOps s ops = some (outs, sEnd) →
        VideoEncoder.realResults outs = [] ∨
          (VideoEncoder.realResults outs).head?
            = some (VideoEncoder.FEResult.headerBytes s.header)) ∧
    (∀ s : VideoEncoder.EncState, s.running = true → s.headerPending = false →
        (VideoEncoder.finishEncode s).result
          = VideoEncoder.FEResult.packet s.frameCount) := by
  refine ⟨?_, ?_, ?_, ?_⟩
  · intro w h fps hdr s0 hinit
    have h2 : some ({ initialized := true
                      running := false
                      frameCount := 0
                      headerPending := true
                      header := hdr
                      cmdBuffersAllocated := false
                      resourcesAllocated := true
                      width := w &&& (U32 - 2)
                      height := h &&& (U32 - 2) } : VideoEncoder.EncState)
        = some s0 := hinit
    obtain rfl := Option.some.inj h2
    exact finishEncode_idle _ rfl
  · intro s ops outs sEnd hrun
    have hbud := runOps_header_budget ops s outs sEnd hrun
    cases hsp : s.headerPending <;> cases hse : sEnd.headerPending <;>
      rw [hsp, hse] at hbud <;> simp at hbud <;> omega
  · exact fun s ops outs sEnd hp hrun => runOps_first_real ops s outs sEnd hp hrun
  · intro s hr hp
    rw [finishEncode_packet s hr hp]

/-- Witness for the amended C4, exercised on the demonstration run. -/
theorem header_emission_protocol_witness :
    VideoEncoder.finishEncode VideoEncoder.postInitState
      = ⟨VideoEncoder.FEResult.empty, false, VideoEncoder.postInitState⟩ ∧
    VideoEncoder.runOps VideoEncoder.postInitState VideoEncoder.demoOps
      = some (VideoEncoder.demoOuts, VideoEncoder.demoEndState) ∧
    VideoEncoder.headerCount VideoEncoder.demoOuts ≤ 1 ∧
    (VideoEncoder.realResults VideoEncoder.demoOuts = [] ∨
      (VideoEncoder.realResults VideoEncoder.demoOuts).head?
        = some (VideoEncoder.FEResult.headerBytes VideoEncoder.postInitState.header)) ∧
    (VideoEncoder.finishEncode VideoEncoder.runningState).result
      = VideoEncoder.FEResult.packet VideoEncoder.runningState.frameCount :=
  ⟨header_emission_protocol.1 800 600 30 [9, 8] VideoEncoder.postInitState (by decide),
   by decide,
   header_emission_protocol.2.1 VideoEncoder.postInitState VideoEncoder.demoOps
     VideoEncoder.demoOuts VideoEncoder.demoEndState (by decide),
   header_emission_protocol.2.2.1 VideoEncoder.postInitState VideoEncoder.demoOps
     VideoEncoder.demoOuts VideoEncoder.demoEndState rfl (by decide),
   header_emission_protocol.2.2.2 VideoEncoder.runningState rfl rfl⟩

/-- C10: a finishEncode that returns the pending header leaves the running
flag set, the frame counter unchanged and the per-frame command buffers
allocated, so after the first queueEncode the first finishEncode returns the
header without blocking and only the second returns the packet of that frame,
frees the command buffers and returns the coordinator to the ready state. -/
theorem header_retrieval_keeps_running (s : VideoEncoder.EncState) (ix : Nat)
    (t : VideoEncoder.EncState)
    (hrun : s.running = false) (hpend : s.headerPending = true)
    (hq : VideoEncoder.queueEncode s ix = some t) :
    (VideoEncoder.finishEncode t).result
      = VideoEncoder.FEResult.headerBytes s.header ∧
    (VideoEncoder.finishEncode t).blocked = false ∧
    (VideoEncoder.finishEncode t).state.running = true ∧
    (VideoEncoder.finishEncode t).state.frameCount = s.frameCount ∧
    (VideoEncoder.finishEncode t).state.cmdBuffersAllocated = true ∧
    (VideoEncoder.finishEncode (VideoEncoder.finishEncode t).state).result
      = VideoEncoder.FEResult.packet s.frameCount ∧
    (VideoEncoder.finishEncode (VideoEncoder.finishEncode t).state).blocked = true ∧
    (VideoEncoder.finishEncode (VideoEncoder.finishEncode t).state).state.running = false ∧
    (VideoEncoder.finishEncode (VideoEncoder.finishEncode t).state).state.frameCount
      = s.frameCount + 1 ∧
    (VideoEncoder.finishEncode
        (VideoEncoder.finishEncode t).state).state.cmdBuffersAllocated = false := by
  have ht : t = { s with running := true, cmdBuffersAllocated := true } := by
    rw [queueEncode_ready s ix hrun] at hq
    exact (Option.some.inj hq).symm
  subst ht
  have h1 := finishEncode_header { s with running := true, cmdBuffersAllocated := true }
    rfl hpend
  rw [h1]
  exact ⟨rfl, rfl, rfl, rfl, rfl, rfl, rfl, rfl, rfl, rfl⟩

/-- Witness for C10 from the demonstration post-init state. -/
theorem header_retrieval_keeps_running_witness :
    VideoEncoder.postInitState.running = false ∧
    VideoEncoder.postInitState.headerPending = true ∧
    VideoEncoder.queueEncode VideoEncoder.postInitState 0
      = some VideoEncoder.postQueueState ∧
    (VideoEncoder.finishEncode VideoEncoder.postQueueState).result
      = VideoEncoder.FEResult.headerBytes VideoEncoder.postInitState.header ∧
    (VideoEncoder.finishEncode VideoEncoder.postQueueState).state.running = true ∧
    (VideoEncoder.finishEncode
        (VideoEncoder.finishEncode VideoEncoder.postQueueState).state).result
      = VideoEncoder.FEResult.packet VideoEncoder.postInitState.frameCount := by
  have h := header_retrieval_keeps_running VideoEncoder.postInitState 0
    VideoEncoder.postQueueState rfl rfl (by decide)
  exact ⟨rfl, rfl, by decide, h.1, h.2.2.1, h.2.2.2.2.2.1⟩

/-- C9: deinit is idempotent and callable from any state; it clears the
initialized flag, and from an initialized state it releases the session
resources, clears the stored header and performs the blocking drain exactly
when a frame is in flight; on an uninitialized state it is a no-op. -/
theorem deinit_idempotent_release :
    (∀ s : VideoEncoder.EncState,
        VideoEncoder.deinit (VideoEncoder.deinit s) = VideoEncoder.deinit s) ∧
    (∀ s : VideoEncoder.EncState, (VideoEncoder.deinit s).initialized = false) ∧
    (∀ s : VideoEncoder.EncState, s.initialized = false → VideoEncoder.deinit s = s) ∧
    (∀ s : VideoEncoder.EncState, s.initialized = true →
        (VideoEncoder.deinit s).resourcesAllocated = false ∧
        (VideoEncoder.deinit s).header = [] ∧
        VideoEncoder.deinitDrains s = s.running) := by
  have hno : ∀ s : VideoEncoder.EncState, s.initialized = false →
      VideoEncoder.deinit s = s := by
    intro s h
    simp [VideoEncoder.deinit, h]
  have hyes : ∀ s : VideoEncoder.EncState, s.initialized = true →
      VideoEncoder.deinit s = { s with
        cmdBuffersAllocated := if s.running then false else s.cmdBuffersAllocated
        resourcesAllocated := false
        header := []
        initialized := false } := by
    intro s h
    simp [VideoEncoder.deinit, h]
  refine ⟨?_, ?_, hno, ?_⟩
  · intro s
    by_cases h : s.initialized
    · have h2 : s.initialized = true := by simpa using h
      rw [hyes s h2]
      exact hno _ rfl
    · have h2 : s.initialized = false := by simpa using h
      rw [hno s h2, hno s h2]
  · intro s
    by_cases h : s.initialized
    · have h2 : s.initialized = true := by simpa using h
      rw [hyes s h2]
    · have h2 : s.initialized = false := by simpa using h
      rw [hno s h2]
      exact h2
  · intro s h
    rw [hyes s h]
    refine ⟨rfl, rfl, ?_⟩
    simp [VideoEncoder.deinitDrains, h]

/-- Witness for C9 on a running initialized state and the fresh state. -/
theorem deinit_idempotent_release_witness :
    VideoEncoder.deinit (VideoEncoder.deinit VideoEncoder.runningState)
      = VideoEncoder.deinit VideoEncoder.runningState ∧
    (VideoEncoder.deinit VideoEncoder.runningState).initialized = false ∧
    VideoEncoder.deinit VideoEncoder.freshEncoder = VideoEncoder.freshEncoder ∧
    ((VideoEncoder.deinit VideoEncoder.runningState).resourcesAllocated = false ∧
      (VideoEncoder.deinit VideoEncoder.runningState).header = [] ∧
      VideoEncoder.deinitDrains VideoEncoder.runningState
        = VideoEncoder.runningState.running) :=
  ⟨deinit_idempotent_release.1 VideoEncoder.runningState,
   deinit_idempotent_release.2.1 VideoEncoder.runningState,
   deinit_idempotent_release.2.2.1 VideoEncoder.freshEncoder rfl,
   deinit_idempotent_release.2.2.2 VideoEncoder.runningState rfl⟩

/-- C8 counterexample: the semaphore signalled by the encode submission
(semaphore 2) IS waited on by a later submission: the conversion submission of
frame 1 waits on it, refuting that it is consumed by no submission. -/
theorem encode_signal_semaphore_cex :
    VideoEncoder.encodeSubmission.signals = [VideoEncoder.Sem.interQueue2] ∧
    VideoEncoder.Sem.interQueue2 ∈ (VideoEncoder.convSubmission 1).waits := by
  exact ⟨rfl, by decide⟩

/-- C8 amended: the conversion submission always signals exactly the two
semaphores 1 and 3 (1 is waited on by the same frame encode submission, 3 by
the next frame conversion submission), the encode submission waits only on
semaphore 1, and the semaphore 2 it signals is waited on by the conversion
submission of every subsequent frame (every conversion with nonzero frame
counter waits on semaphores 2 and 3; the very first conversion waits on
nothing). -/
theorem semaphore_wiring (n : Nat) :
    (VideoEncoder.convSubmission n).signals
      = [VideoEncoder.Sem.interQueue1, VideoEncoder.Sem.interQueue3] ∧
    VideoEncoder.encodeSubmission.waits = [VideoEncoder.Sem.interQueue1] ∧
    VideoEncoder.encodeSubmission.signals = [VideoEncoder.Sem.interQueue2] ∧
    VideoEncoder.Sem.interQueue1 ∈ VideoEncoder.encodeSubmission.waits ∧
    (VideoEncoder.convSubmission (n + 1)).waits
      = [VideoEncoder.Sem.interQueue2, VideoEncoder.Sem.interQueue3] ∧
    VideoEncoder.Sem.interQueue3 ∈ (VideoEncoder.convSubmission (n + 1)).waits ∧
    VideoEncoder.Sem.interQueue2 ∈ (VideoEncoder.convSubmission (n + 1)).waits ∧
    (VideoEncoder.convSubmission 0).waits = [] := by
  have hw : (VideoEncoder.convSubmission (n + 1)).waits
      = [VideoEncoder.Sem.interQueue2, VideoEncoder.Sem.interQueue3] := rfl
  exact ⟨rfl, rfl, rfl, by decide, hw, by rw [hw]; decide, by rw [hw]; decide, rfl⟩
